import Mathlib

/-!
Verification of `hwwwmon.py`: a shallow embedding of the sensor registry
(`Mons.__init__`), the collector (`Mons.collect`), and the HTTP handler
routes (`do_GET`, `do_mon`, `do_mon_sse`), together with theorems settling
the specification claims.

Modelling conventions:
* The sysfs tree under `/sys/class/hwmon` is a list of device directories,
  each holding a list of (file name, content) pairs.
* Python dicts are insertion-ordered association lists; assignment replaces
  the value in place for an existing key and appends for a new key.
* Machine/py numbers: raw sensor readings are `Int`, scales and computed
  values are `Rat` (Python float literals such as 0.001 are modelled by the
  exact rationals the spec table states).
* A failed operation is `Except.error`; `OSError` on a read is modelled as
  the file being absent from the filesystem state at read time.
* Open file handles carry a read position (`PosMap`); `read()` consumes
  from the current position and `seek(0)` resets it, mirroring the
  seek-to-zero-then-read behaviour of the collector.
-/

namespace Hwwwmon

/-- Python dict assignment `d[k] = v` on an insertion-ordered association
list: replace in place if the key exists, else append at the end. -/
def dinsert {α : Type} (k : String) (v : α) : List (String × α) → List (String × α)
  | [] => [(k, v)]
  | (k0, v0) :: rest => if k = k0 then (k, v) :: rest else (k0, v0) :: dinsert k v rest

/-- One device directory under `/sys/class/hwmon`: its base name (for
example `hwmon1`) and its files as (base name, content) pairs. -/
structure HwmonDevice where
  dirBase : String
  files : List (String × String)
deriving DecidableEq

/-- The sysfs state at one moment: the list of device directories. -/
structure SysFS where
  devices : List HwmonDevice
deriving DecidableEq

/-- Read the file `file` inside device directory `d`; `none` models both a
missing file and an `OSError` from the read. -/
def readFile (fs : SysFS) (h : String × String) : Option String :=
  match fs.devices.find? (fun dev => dev.dirBase = h.1) with
  | none => none
  | some dev => dev.files.lookup h.2

/-- The full path of an input file, as the glob returns it. -/
def pathOf (d b : String) : String :=
  "/sys/class/hwmon/" ++ d ++ "/" ++ b

/-- String suffix test, on the character lists. -/
def strEndsWith (s pat : String) : Bool :=
  pat.toList.isSuffixOf s.toList

/-- String prefix test, on the character lists. -/
def strStartsWith (s pat : String) : Bool :=
  pat.toList.isPrefixOf s.toList

/-- Code-point lexicographic order on character lists, as Python compares
strings. -/
def charListLe : List Char → List Char → Bool
  | [], _ => true
  | _ :: _, [] => false
  | c :: cs, d :: ds =>
    if c.toNat < d.toNat then true
    else if d.toNat < c.toNat then false
    else charListLe cs ds

/-- Python string order. -/
def strLe (s t : String) : Bool :=
  charListLe s.toList t.toList

/-- The whitespace characters `str.strip()` removes. -/
def pyIsSpace (c : Char) : Bool :=
  c = ' ' || c = '\t' || c = '\n' || c = '\r' || c.toNat = 11 || c.toNat = 12

/-- Python `str.strip()`. -/
def pyStrip (s : String) : String :=
  (((s.toList.dropWhile pyIsSpace).reverse.dropWhile pyIsSpace).reverse).asString

/-- `glob.glob("/sys/class/hwmon/*/*_input")`: every non-hidden file ending
in `_input` inside every non-hidden device directory, as (dir, base) pairs. -/
def globInput (fs : SysFS) : List (String × String) :=
  fs.devices.flatMap (fun dev =>
    if strStartsWith dev.dirBase "." then []
    else
      (dev.files.filter (fun f => strEndsWith f.1 "_input" && !strStartsWith f.1 ".")).map
        (fun f => (dev.dirBase, f.1)))

/-- Insert one glob match into a list sorted by full path. -/
def insertByPath (x : String × String) : List (String × String) → List (String × String)
  | [] => [x]
  | y :: ys =>
    if strLe (pathOf x.1 x.2) (pathOf y.1 y.2) then x :: y :: ys
    else y :: insertByPath x ys

/-- `sorted(...)` over glob matches, by full path string. -/
def sortByPath (l : List (String × String)) : List (String × String) :=
  l.foldr insertByPath []

/-- `re.sub(r'hwmon', '', s)`: delete every (leftmost, non-overlapping)
occurrence of `hwmon`. -/
def removeHwmon : List Char → List Char
  | [] => []
  | 'h' :: 'w' :: 'm' :: 'o' :: 'n' :: rest => removeHwmon rest
  | c :: rest => c :: removeHwmon rest

/-- String version of `removeHwmon`. -/
def pyRemoveHwmon (s : String) : String :=
  (removeHwmon s.toList).asString

/-- `re.sub(r'\d.*', '', base)`: keep the characters before the first digit
(file base names contain no newline, so the match runs to the end). -/
def monTypeOf (base : String) : String :=
  (base.toList.takeWhile (fun c => !c.isDigit)).asString

/-- `re.sub(r'_input$', '_label', base)` on the file base name. -/
def labelName (b : String) : String :=
  if strEndsWith b "_input" then b.dropRight 6 ++ "_label" else b

/-- `re.sub(r'_input$', '', base)`: the channel identifier used as the
label fallback. -/
def channelOf (b : String) : String :=
  if strEndsWith b "_input" then b.dropRight 6 else b

/-- `slurp(path, ifnotexist)`: return the stripped content of file `file`
in device directory `d`, or `ifnotexist` untouched when it is absent. -/
def slurp (fs : SysFS) (d file ifnotexist : String) : String :=
  match readFile fs (d, file) with
  | none => ifnotexist
  | some c => pyStrip c

/-- The display name composed in `Mons.__init__`:
`"%s:%s %s" % (re.sub('hwmon','',dir), slurp(dir/name), slurp(label, channel))`. -/
def monNameOf (fs : SysFS) (d b : String) : String :=
  pyRemoveHwmon d ++ ":" ++ slurp fs d "name" "" ++ " " ++
    slurp fs d (labelName b) (channelOf b)

/-- The `if mon_type == ...` chain of `Mons.__init__`: title, scale and
offset per category; unknown categories keep the raw name, scale 1,
offset 0. -/
def monTypeInfo (mon_type : String) : String × ℚ × ℚ :=
  if mon_type = "in" then ("Voltage (V)", 0.001, 0)
  else if mon_type = "fan" then ("Fan speed (RPM)", 1, 0)
  else if mon_type = "temp" then ("Temperature (°C)", 0.001, 0)
  else if mon_type = "curr" then ("Current (A)", 0.001, 0)
  else if mon_type = "power" then ("Power (W)", 0.000001, 0)
  else if mon_type = "energy" then ("Energy (J)", 0.000001, 0)
  else if mon_type = "freq" then ("Frequency (MHz)", 0.000001, 0)
  else (mon_type, 1, 0)

/-- The conversion-table title as the specification states it in §6. -/
def specTitle (t : String) : String :=
  if t = "in" then "Voltage (V)"
  else if t = "fan" then "Fan speed (RPM)"
  else if t = "temp" then "Temperature (°C)"
  else if t = "curr" then "Current (A)"
  else if t = "power" then "Power (W)"
  else if t = "energy" then "Energy (J)"
  else if t = "freq" then "Frequency (MHz)"
  else t

/-- The conversion-table scale as the specification states it in §6. -/
def specScale (t : String) : ℚ :=
  if t = "in" then 0.001
  else if t = "fan" then 1
  else if t = "temp" then 0.001
  else if t = "curr" then 0.001
  else if t = "power" then 0.000001
  else if t = "energy" then 0.000001
  else if t = "freq" then 0.000001
  else 1

/-- One registered sensor: display name, the open handle (identified by its
device directory and file base name), scale and offset. -/
structure MonEntry where
  name : String
  fh : String × String
  scale : ℚ
  offset : ℚ
deriving DecidableEq

/-- The registry built by `Mons.__init__`: `self.mons` maps category to a
dict from full input path to entry, `self.type_titles` maps category to
axis title. -/
structure Mons where
  mons : List (String × List (String × MonEntry))
  type_titles : List (String × String)
deriving DecidableEq

/-- Read positions of the open handles, keyed by full input path. A fresh
handle starts at 0; `read()` advances to the end; `seek(0)` resets. -/
abbrev PosMap := List (String × Nat)

/-- The loop body of `Mons.__init__` over the sorted glob matches. `open`
of a vanished input file raises, aborting construction. -/
def monsInitGo (fs : SysFS) :
    List (String × String) → List (String × List (String × MonEntry)) →
    List (String × String) → PosMap → Except String (Mons × PosMap)
  | [], mons, titles, pos => .ok (⟨mons, titles⟩, pos)
  | (d, b) :: rest, mons, titles, pos =>
    let mon_type := monTypeOf b
    let mon_path := pathOf d b
    let mon_name := monNameOf fs d b
    let info := monTypeInfo mon_type
    let titles1 := dinsert mon_type info.1 titles
    match readFile fs (d, b) with
    | none => .error ("FileNotFoundError: " ++ mon_path)
    | some _ =>
      let entry : MonEntry := ⟨mon_name, (d, b), info.2.1, info.2.2⟩
      let bucket := (List.lookup mon_type mons).getD []
      monsInitGo fs rest (dinsert mon_type (dinsert mon_path entry bucket) mons)
        titles1 (dinsert mon_path 0 pos)

/-- `Mons.__init__`, parameterised by the glob result so that a file
vanishing between the glob scan and the `open` call is representable. -/
def monsInit (globbed : List (String × String)) (fs : SysFS) :
    Except String (Mons × PosMap) :=
  monsInitGo fs (sortByPath globbed) [] [] []

/-- Digit run of a Python integer literal, with single underscores allowed
between digits; accumulates the value. -/
def digitsCore : List Char → Nat → Option Nat
  | [], acc => some acc
  | '_' :: c :: rest, acc =>
    if c.isDigit then digitsCore rest (acc * 10 + (c.toNat - 48)) else none
  | ['_'], _ => none
  | c :: rest, acc =>
    if c.isDigit then digitsCore rest (acc * 10 + (c.toNat - 48)) else none

/-- Nonempty digit run starting a Python integer literal. -/
def digitsStart : List Char → Option Nat
  | [] => none
  | c :: rest => if c.isDigit then digitsCore rest (c.toNat - 48) else none

/-- Python `int(s)`: strip whitespace, optional sign, digits; `none` is a
`ValueError`. -/
def pyInt? (s : String) : Option Int :=
  match (pyStrip s).toList with
  | '+' :: rest => (digitsStart rest).map Int.ofNat
  | '-' :: rest => (digitsStart rest).map (fun n => -(n : Int))
  | rest => (digitsStart rest).map Int.ofNat

/-- The collection result of one poll: `_errors`, `_titles`, and the
category → (display name → value) data, in dict insertion order. -/
structure Snapshot where
  errors : List String
  titles : List (String × String)
  data : List (String × List (String × ℚ))
deriving DecidableEq

/-- The inner loop of `Mons.collect` over one category: seek to zero, read,
parse, scale. An unreadable file (`OSError`) appends to `_errors`; content
that fails `int()` (`ValueError`) aborts the whole collection. -/
def collectCat (fs : SysFS) :
    List (String × MonEntry) → List (String × ℚ) → List String → PosMap →
    Except String (List (String × ℚ) × List String) × PosMap
  | [], vals, errs, pos => (.ok (vals, errs), pos)
  | (p, e) :: rest, vals, errs, pos =>
    let pos0 := dinsert p 0 pos
    match readFile fs e.fh with
    | none => collectCat fs rest vals (errs ++ ["Failed to read " ++ p]) pos0
    | some c =>
      let start := (List.lookup p pos0).getD 0
      let content := (c.toList.drop start).asString
      let pos1 := dinsert p c.toList.length pos0
      match pyInt? content with
      | none => (.error ("invalid literal for int() with base 10: " ++ content), pos1)
      | some i => collectCat fs rest (dinsert e.name ((i : ℚ) * e.scale + e.offset) vals) errs pos1

/-- The outer loop of `Mons.collect` over the categories: each category key
is created before its sensors are read. -/
def collectGo (fs : SysFS) :
    List (String × List (String × MonEntry)) →
    List (String × List (String × ℚ)) → List String → PosMap →
    Except String (List (String × List (String × ℚ)) × List String) × PosMap
  | [], data, errs, pos => (.ok (data, errs), pos)
  | (t, sensors) :: rest, data, errs, pos =>
    match collectCat fs sensors [] errs pos with
    | (.error msg, pos1) => (.error msg, pos1)
    | (.ok (vals, errs1), pos1) => collectGo fs rest (data ++ [(t, vals)]) errs1 pos1

/-- `Mons.collect`: build the snapshot (`_errors`, `_titles` from the
registry, one key per category); returns the updated handle positions.
An uncaught `ValueError` is the `.error` case. -/
def Mons.collect (m : Mons) (fs : SysFS) (pos : PosMap) :
    Except String Snapshot × PosMap :=
  match collectGo fs m.mons [] [] pos with
  | (.error msg, pos1) => (.error msg, pos1)
  | (.ok (data, errs), pos1) => (.ok ⟨errs, m.type_titles, data⟩, pos1)

/-- `Mons.close`: close every handle and clear the registry. -/
def Mons.close (m : Mons) : Mons :=
  ⟨[], m.type_titles⟩

/-- Lower-case hex digit. -/
def hexDigit (n : Nat) : Char :=
  if n < 10 then Char.ofNat (48 + n) else Char.ofNat (87 + n)

/-- Four lower-case hex digits, as in a JSON `\uXXXX` escape. -/
def hex4 (n : Nat) : String :=
  ⟨[hexDigit (n / 4096 % 16), hexDigit (n / 256 % 16), hexDigit (n / 16 % 16),
    hexDigit (n % 16)]⟩

/-- One character of a JSON string under `json.dumps` defaults
(`ensure_ascii=True`): escape quotes, backslashes, controls and
non-ASCII. -/
def escapeJsonChar (c : Char) : String :=
  if c = '"' then "\\\""
  else if c = '\\' then "\\\\"
  else if c = '\n' then "\\n"
  else if c = '\t' then "\\t"
  else if c = '\r' then "\\r"
  else if c.toNat < 32 then "\\u" ++ hex4 c.toNat
  else if c.toNat < 127 then ⟨[c]⟩
  else if c.toNat < 65536 then "\\u" ++ hex4 c.toNat
  else
    "\\u" ++ hex4 (55296 + (c.toNat - 65536) / 1024) ++
      "\\u" ++ hex4 (56320 + (c.toNat - 65536) % 1024)

/-- A JSON string literal. -/
def jsonStr (s : String) : String :=
  "\"" ++ String.join (s.toList.map escapeJsonChar) ++ "\""

/-- Decimal digits of a natural number. -/
def natDigits (n : Nat) : List Char :=
  (toString n).toList

/-- A JSON number for a collected value. Values with integer scale stay
Python ints (`42`); scaled values are floats with at most six fractional
digits, matching the fixed scales of the table. -/
def renderNum (q : ℚ) : String :=
  if q.den = 1 then toString q.num
  else
    let sgn := if q < 0 then "-" else ""
    let scaled := (|q| * 1000000).num.natAbs
    let ds := natDigits scaled
    let ds7 := List.replicate (7 - ds.length) '0' ++ ds
    let intPart := ds7.take (ds7.length - 6)
    let fracPart := (ds7.drop (ds7.length - 6)).reverse.dropWhile (fun c => c = '0')
    let fracPart := if fracPart = [] then ['0'] else fracPart.reverse
    sgn ++ ⟨intPart⟩ ++ "." ++ ⟨fracPart⟩

/-- An atomic JSON value appearing inside a snapshot. -/
inductive JAtom where
  | str (s : String)
  | num (q : ℚ)
deriving DecidableEq

/-- A depth-one JSON value appearing as a snapshot field: an array of
strings or an object of atoms. -/
inductive JShallow where
  | arrS (xs : List String)
  | objA (fields : List (String × JAtom))
deriving DecidableEq

/-- A snapshot-shaped JSON document: a top-level object of depth-one
values. -/
abbrev Jtop := List (String × JShallow)

/-- Render an atomic JSON value. -/
def renderAtom : JAtom → String
  | .str s => jsonStr s
  | .num q => renderNum q

/-- Render a depth-one JSON value with `json.dumps` default separators. -/
def renderShallow : JShallow → String
  | .arrS xs => "[" ++ String.intercalate ", " (xs.map jsonStr) ++ "]"
  | .objA fields =>
    "\x7b" ++
      String.intercalate ", "
        (fields.map (fun f => jsonStr f.1 ++ ": " ++ renderAtom f.2)) ++
      "\x7d"

/-- Render a top-level JSON object with `json.dumps` default separators. -/
def renderTop (j : Jtop) : String :=
  "\x7b" ++
    String.intercalate ", "
      (j.map (fun f => jsonStr f.1 ++ ": " ++ renderShallow f.2)) ++
    "\x7d"

/-- The JSON document of a snapshot: `_errors`, `_titles`, then one object
per category, in dict insertion order. -/
def snapshotJson (s : Snapshot) : Jtop :=
  ("_errors", .arrS s.errors) ::
    ("_titles", .objA (s.titles.map (fun p => (p.1, .str p.2)))) ::
    s.data.map (fun p => (p.1, .objA (p.2.map (fun q => (q.1, .num q.2)))))

/-- `json.dumps` of a snapshot. -/
def pyJsonDumps (s : Snapshot) : String :=
  renderTop (snapshotJson s)

/-- The §6 snapshot schema: `_errors` an array of strings, `_titles` an
object of strings, every remaining key a category object of numbers, with
no category clashing with the two metadata keys. -/
def conformsSnapshotSchema (j : Jtop) : Bool :=
  match j with
  | ("_errors", .arrS _) :: ("_titles", .objA ts) :: rest =>
    ts.all (fun p => match p.2 with | .str _ => true | .num _ => false) &&
      rest.all (fun p =>
        decide (p.1 ≠ "_errors") && decide (p.1 ≠ "_titles") &&
          match p.2 with
          | .objA vs => vs.all (fun q => match q.2 with | .num _ => true | .str _ => false)
          | .arrS _ => false)
  | _ => false

/-- `urllib.parse.urlparse(path).path`: the raw request path up to the
first query or fragment delimiter. -/
def urlPath (raw : String) : String :=
  (raw.toList.takeWhile (fun c => c ≠ '?' ∧ c ≠ '#')).asString

/-- `urllib.parse.urlparse(path).query`: what follows the first `?` of the
part before any fragment. -/
def urlQuery (raw : String) : String :=
  (((raw.toList.takeWhile (fun c => c ≠ '#')).dropWhile (fun c => c ≠ '?')).drop 1).asString

/-- Append one `key=value` pair to a `parse_qs` multi-dict. -/
def qsAdd (k v : String) : List (String × List String) → List (String × List String)
  | [] => [(k, [v])]
  | (k0, vs) :: rest =>
    if k = k0 then (k0, vs ++ [v]) :: rest else (k0, vs) :: qsAdd k v rest

/-- `urllib.parse.parse_qs`: split on `&`, keep `key=value` items with a
nonempty value, grouped by key in order. -/
def parseQs (query : String) : List (String × List String) :=
  ((query.splitOn "&").filterMap (fun item =>
      match item.splitOn "=" with
      | [] => none
      | [_] => none
      | k :: vs =>
        let v := String.intercalate "=" vs
        if v = "" then none else some (k, v))).foldl
    (fun acc p => qsAdd p.1 p.2 acc) []

/-- `int("".join(qs.get("update-rate", ["300"]))) / 1000`: the sleep
interval in seconds; a non-numeric parameter raises before the response
starts. -/
def updateRateSeconds (qs : List (String × List String)) : Except String ℚ :=
  match pyInt? (String.join ((List.lookup "update-rate" qs).getD ["300"])) with
  | none => .error "ValueError: invalid update-rate"
  | some i => .ok ((i : ℚ) / 1000)

/-- The environment of one `while True` iteration of the SSE loop: the
filesystem at that tick and whether each of the three writes and the flush
reach the client. -/
structure TickEnv where
  fs : SysFS
  w1 : Bool
  w2 : Bool
  w3 : Bool
  wFlush : Bool
deriving DecidableEq

/-- How the SSE loop ended: a caught write failure (`return`) or an
exception that propagated out of the loop. -/
inductive SseExit where
  | clientGone
  | exn (msg : String)
deriving DecidableEq

/-- One run of the SSE loop: the bytes that reached the client and how the
loop ended (`none`: the supplied trace ran out with the loop still
going). -/
structure SseRun where
  bytes : String
  exit : Option SseExit
deriving DecidableEq

/-- The `while True` loop of `do_mon_sse`: write `data: `, collect and
write the JSON, write the blank line, flush, sleep, repeat. A failing
write or flush is caught and returns; an exception from `collect` that is
not an `OSError` propagates. -/
def sseLoop (m : Mons) : PosMap → List TickEnv → SseRun
  | _, [] => ⟨"", none⟩
  | pos, env :: rest =>
    if env.w1 = false then ⟨"", some .clientGone⟩
    else
      match m.collect env.fs pos with
      | (.error msg, _) => ⟨"data: ", some (.exn msg)⟩
      | (.ok s, pos1) =>
        if env.w2 = false then ⟨"data: ", some .clientGone⟩
        else if env.w3 = false then ⟨"data: " ++ pyJsonDumps s, some .clientGone⟩
        else if env.wFlush = false then
          ⟨"data: " ++ pyJsonDumps s ++ "\n\n", some .clientGone⟩
        else
          let r := sseLoop m pos1 rest
          ⟨"data: " ++ pyJsonDumps s ++ "\n\n" ++ r.bytes, r.exit⟩

/-- The snapshots the loop would collect along a trace (skipping failed
ticks); used to state what a fully successful run emits. -/
def tickSnaps (m : Mons) : PosMap → List TickEnv → List Snapshot
  | _, [] => []
  | pos, env :: rest =>
    match m.collect env.fs pos with
    | (.ok s, pos1) => s :: tickSnaps m pos1 rest
    | (.error _, pos1) => tickSnaps m pos1 rest

/-- The byte string of a sequence of well-formed SSE frames: each snapshot
as `data: `, its JSON, and a terminating blank line. -/
def sseFrames : List Snapshot → String
  | [] => ""
  | s :: rest => "data: " ++ pyJsonDumps s ++ "\n\n" ++ sseFrames rest

/-- What one request produced: the status line and content type sent, the
body bytes written, whether the handler finished without an exception
escaping, whether every registry it built was torn down, and for the SSE
route the sleep interval in seconds. -/
structure HttpResponse where
  status : Nat
  contentType : String
  body : String
  completed : Bool
  closed : Bool
  sleepSeconds : Option ℚ
  sseExit : Option SseExit
deriving DecidableEq

/-- `do_index`: the static page with status 200. -/
def do_index (pageHtml : String) : HttpResponse :=
  ⟨200, "text/html", pageHtml, true, true, none, none⟩

/-- `do_mon`: send 200 and `application/json`, build a registry, collect
once, write the JSON, tear the registry down (`finally`). A collection
exception leaves the body unwritten; a construction exception also skips
the teardown. -/
def do_mon (fs : SysFS) : HttpResponse :=
  match monsInit (globInput fs) fs with
  | .error _ => ⟨200, "application/json", "", false, false, none, none⟩
  | .ok (m, pos) =>
    match (m.collect fs pos).1 with
    | .error _ => ⟨200, "application/json", "", false, true, none, none⟩
    | .ok s => ⟨200, "application/json", pyJsonDumps s, true, true, none, none⟩

/-- `do_mon_sse`: parse `update-rate` (milliseconds, default 300), send the
stream headers, build a registry, then run the emit loop; the registry is
torn down by the `finally` once built. -/
def do_mon_sse (qs : List (String × List String)) (fs0 : SysFS)
    (ticks : List TickEnv) : HttpResponse :=
  match updateRateSeconds qs with
  | .error _ => ⟨0, "", "", false, true, none, none⟩
  | .ok rate =>
    match monsInit (globInput fs0) fs0 with
    | .error _ => ⟨200, "text/event-stream", "", false, false, some rate, none⟩
    | .ok (m, pos) =>
      let r := sseLoop m pos ticks
      ⟨200, "text/event-stream", r.bytes,
        (match r.exit with | some (.exn _) => false | _ => true),
        true, some rate, r.exit⟩

/-- `do_GET`: route on the parsed path; anything unknown is a plain-text
404. -/
def do_GET (pageHtml : String) (fs : SysFS) (ticks : List TickEnv)
    (raw : String) : HttpResponse :=
  let p := urlPath raw
  let qs := parseQs (urlQuery raw)
  if p = "/" then do_index pageHtml
  else if p = "/mon.json" then do_mon fs
  else if p = "/mon.sse" then do_mon_sse qs fs ticks
  else ⟨404, "text/plain", "Not found", true, true, none, none⟩

/-- Fixture: one device with one temperature input, a name file and a
label file. -/
def fsEx1 : SysFS :=
  ⟨[⟨"hwmon1", [("temp1_input", "30000"), ("name", "coretemp"),
      ("temp1_label", "Package id 0")]⟩]⟩

/-- Fixture: as `fsEx1` but without the label file. -/
def fsEx2 : SysFS :=
  ⟨[⟨"hwmon1", [("temp1_input", "30000"), ("name", "coretemp")]⟩]⟩

/-- The registry built from `fsEx1`. -/
def mEx1 : Mons :=
  ((monsInit (globInput fsEx1) fsEx1).toOption.map Prod.fst).getD ⟨[], []⟩

/-- The registry built from `fsEx2`. -/
def mEx2 : Mons :=
  ((monsInit (globInput fsEx2) fsEx2).toOption.map Prod.fst).getD ⟨[], []⟩

/-- Fixture: one readable temperature input holding `42`. -/
def fsC : SysFS := ⟨[⟨"hwmon0", [("temp1_input", "42")]⟩]⟩

/-- Fixture: the same input file now holding text that `int()` rejects. -/
def fsBadC : SysFS := ⟨[⟨"hwmon0", [("temp1_input", "oops")]⟩]⟩

/-- The registry built from `fsC`. -/
def mC : Mons :=
  ((monsInit (globInput fsC) fsC).toOption.map Prod.fst).getD ⟨[], []⟩

/-- The handle positions after building the registry from `fsC`. -/
def posC : PosMap :=
  ((monsInit (globInput fsC) fsC).toOption.map Prod.snd).getD []

/-- A tick on which every write and the flush succeed but the sensor file
holds unparseable text. -/
def tickAllTrue : TickEnv := ⟨fsBadC, true, true, true, true⟩

/-- The handle positions after building the registry from `fsEx1`. -/
def posEx1 : PosMap :=
  ((monsInit (globInput fsEx1) fsEx1).toOption.map Prod.snd).getD []

/-- Fixture: the filesystem state once the input file of `fsC` has been
deleted. -/
def fsGone : SysFS := ⟨[]⟩

/-- The snapshot collected by the `fsC` registry once the input file is
gone. -/
def snapGone : Snapshot :=
  match (Mons.collect mC fsGone posC).1 with
  | .ok s => s
  | .error _ => ⟨[], [], []⟩

/-- The snapshot collected by the `fsC` registry while the file is
readable. -/
def snapC : Snapshot :=
  match (Mons.collect mC fsC []).1 with
  | .ok s => s
  | .error _ => ⟨[], [], []⟩

/-- The temperature bucket of the `fsC` registry. -/
def bucketC : List (String × MonEntry) :=
  (List.lookup "temp" mC.mons).getD []

/-- The single sensor entry of the `fsC` registry. -/
def entryC : MonEntry :=
  (List.lookup "/sys/class/hwmon/hwmon0/temp1_input" bucketC).getD ⟨"", ("", ""), 1, 0⟩

/-- A tick on which every write succeeds against the readable filesystem. -/
def tickGoodC : TickEnv := ⟨fsC, true, true, true, true⟩

/-! ### Helper lemmas on the dict model -/

theorem lookup_dinsert {α : Type} (k k1 : String) (v : α) (l : List (String × α)) :
    List.lookup k1 (dinsert k v l) = if k1 = k then some v else List.lookup k1 l := by
  induction l with
  | nil =>
    by_cases h1 : k1 = k
    · simp [dinsert, List.lookup, h1]
    · simp [dinsert, List.lookup, h1, beq_false_of_ne h1]
  | cons hd tl ih =>
    obtain ⟨k0, v0⟩ := hd
    by_cases hk : k = k0
    · subst hk
      by_cases h1 : k1 = k
      · simp [dinsert, List.lookup, h1]
      · simp [dinsert, List.lookup, h1, beq_false_of_ne h1]
    · by_cases h1 : k1 = k0
      · subst h1
        have hne : k1 ≠ k := fun he => hk he.symm
        simp [dinsert, hk, List.lookup, hne, beq_false_of_ne hne]
      · simp [dinsert, hk, List.lookup, beq_false_of_ne h1, ih]

theorem mem_dinsert {α : Type} (x : String × α) (k : String) (v : α)
    (l : List (String × α)) : x ∈ dinsert k v l → x = (k, v) ∨ x ∈ l := by
  induction l with
  | nil => intro h; simpa [dinsert] using h
  | cons hd tl ih =>
    obtain ⟨k0, v0⟩ := hd
    intro h
    by_cases hk : k = k0
    · subst hk
      simp only [dinsert, eq_self_iff_true, if_true, List.mem_cons] at h
      tauto
    · simp only [dinsert, if_neg hk, List.mem_cons] at h
      rcases h with h | h
      · exact Or.inr (List.mem_cons.mpr (Or.inl h))
      · rcases ih h with h1 | h1
        · exact Or.inl h1
        · exact Or.inr (List.mem_cons_of_mem _ h1)

theorem lookup_mem {α : Type} (k : String) (v : α) (l : List (String × α)) :
    List.lookup k l = some v → (k, v) ∈ l := by
  induction l with
  | nil => intro h; simp [List.lookup] at h
  | cons hd tl ih =>
    obtain ⟨k0, v0⟩ := hd
    intro h
    by_cases hk : k = k0
    · subst hk
      simp only [List.lookup, beq_self_eq_true] at h
      cases h
      exact List.mem_cons_self _ _
    · simp only [List.lookup, beq_false_of_ne hk] at h
      exact List.mem_cons_of_mem _ (ih h)

theorem mem_insertByPath (x y : String × String) (l : List (String × String)) :
    y ∈ insertByPath x l ↔ y = x ∨ y ∈ l := by
  induction l with
  | nil => simp [insertByPath]
  | cons hd tl ih =>
    simp only [insertByPath]
    split
    · simp [List.mem_cons, or_comm, or_assoc, or_left_comm]
    · simp only [List.mem_cons, ih]
      tauto

theorem mem_sortByPath (x : String × String) (l : List (String × String)) :
    x ∈ sortByPath l ↔ x ∈ l := by
  induction l with
  | nil => simp [sortByPath]
  | cons hd tl ih =>
    simp only [sortByPath, List.foldr] at ih ⊢
    rw [mem_insertByPath, ih, List.mem_cons]

/-! ### The instance-id rewrite `re.sub('hwmon', '')` -/

theorem removeHwmon_cons_ne (c : Char) (cs : List Char) (h : c ≠ 'h') :
    removeHwmon (c :: cs) = c :: removeHwmon cs := by
  rw [removeHwmon.eq_def]
  split
  · rename_i heq
    cases heq
  · rename_i heq
    injection heq with h1 h2
    exact absurd h1 h
  · rename_i heq
    injection heq with h1 h2
    rw [h1, h2]

theorem removeHwmon_of_digits (l : List Char) :
    (∀ c ∈ l, c.isDigit) → removeHwmon l = l := by
  induction l with
  | nil => intro _; rfl
  | cons c cs ih =>
    intro h
    have hc : c.isDigit := h c (List.mem_cons_self _ _)
    have hch : c ≠ 'h' := by
      intro he
      rw [he] at hc
      simp [Char.isDigit] at hc
    rw [removeHwmon_cons_ne c cs hch, ih (fun d hd => h d (List.mem_cons_of_mem _ hd))]

theorem removeHwmon_hwmon (l : List Char) :
    removeHwmon ('h' :: 'w' :: 'm' :: 'o' :: 'n' :: l) = removeHwmon l := rfl

theorem pyRemoveHwmon_hwmon (instId : String) (h : ∀ c ∈ instId.toList, c.isDigit) :
    pyRemoveHwmon ("hwmon" ++ instId) = instId := by
  show (removeHwmon (("hwmon" ++ instId).toList)).asString = instId
  have h1 : ("hwmon" ++ instId).toList = 'h' :: 'w' :: 'm' :: 'o' :: 'n' :: instId.toList := rfl
  rw [h1, removeHwmon_hwmon, removeHwmon_of_digits _ h]
  rfl

/-! ### Collector lemmas -/

theorem asString_toList (s : String) : s.toList.asString = s := rfl

theorem seek_read_zero (p : String) (pos : PosMap) :
    (List.lookup p (dinsert p 0 pos)).getD 0 = 0 := by
  rw [lookup_dinsert]
  simp

theorem collectCat_fst_pos (fs : SysFS) (ss : List (String × MonEntry)) :
    ∀ (vals : List (String × ℚ)) (errs : List String) (pos1 pos2 : PosMap),
      (collectCat fs ss vals errs pos1).1 = (collectCat fs ss vals errs pos2).1 := by
  induction ss with
  | nil => intro vals errs pos1 pos2; rfl
  | cons hd tl ih =>
    obtain ⟨p, e⟩ := hd
    intro vals errs pos1 pos2
    simp only [collectCat]
    cases hr : readFile fs e.fh with
    | none => exact ih _ _ _ _
    | some c =>
      simp only [seek_read_zero, List.drop_zero, asString_toList]
      cases hp : pyInt? c with
      | none => rfl
      | some i => exact ih _ _ _ _

theorem collectCat_ok (fs : SysFS) (ss : List (String × MonEntry)) :
    ∀ vals errs pos vals1 errs1 pos1,
      collectCat fs ss vals errs pos = (.ok (vals1, errs1), pos1) →
      (∀ x ∈ errs, x ∈ errs1) ∧
      (∀ p e, (p, e) ∈ ss → readFile fs e.fh = none →
        ("Failed to read " ++ p) ∈ errs1) ∧
      (∀ nm, (∀ p2 e2, (p2, e2) ∈ ss → e2.name = nm → readFile fs e2.fh = none) →
        List.lookup nm vals = none → List.lookup nm vals1 = none) ∧
      ((∀ p e, (p, e) ∈ ss → readFile fs e.fh = none) → vals1 = vals) := by
  induction ss with
  | nil =>
    intro vals errs pos vals1 errs1 pos1 h
    simp only [collectCat, Prod.mk.injEq, Except.ok.injEq] at h
    obtain ⟨⟨h1, h2⟩, -⟩ := h
    subst h1; subst h2
    exact ⟨fun x hx => hx, fun p e hmem => by simp at hmem,
      fun nm _ hnone => hnone, fun _ => rfl⟩
  | cons hd tl ih =>
    obtain ⟨p, e⟩ := hd
    intro vals errs pos vals1 errs1 pos1 h
    simp only [collectCat] at h
    cases hr : readFile fs e.fh with
    | none =>
      simp only [hr] at h
      obtain ⟨hgrow, hfail, hlook, hallfail⟩ := ih _ _ _ _ _ _ h
      refine ⟨fun x hx => hgrow x (List.mem_append.mpr (Or.inl hx)), ?_, ?_, ?_⟩
      · intro p3 e3 hmem hr3
        rcases List.mem_cons.mp hmem with heq | hmem3
        · cases heq
          exact hgrow _ (List.mem_append.mpr (Or.inr (List.mem_cons_self _ _)))
        · exact hfail p3 e3 hmem3 hr3
      · intro nm hnoc hnone
        exact hlook nm (fun p2 e2 h2 hn => hnoc p2 e2 (List.mem_cons_of_mem _ h2) hn) hnone
      · intro hall
        exact hallfail (fun p3 e3 hm => hall p3 e3 (List.mem_cons_of_mem _ hm))
    | some c =>
      simp only [hr, seek_read_zero, List.drop_zero, asString_toList] at h
      cases hp : pyInt? c with
      | none => simp only [hp] at h; cases h
      | some i =>
        simp only [hp] at h
        obtain ⟨hgrow, hfail, hlook, hallfail⟩ := ih _ _ _ _ _ _ h
        refine ⟨hgrow, ?_, ?_, ?_⟩
        · intro p3 e3 hmem hr3
          rcases List.mem_cons.mp hmem with heq | hmem3
          · cases heq
            rw [hr3] at hr
            cases hr
          · exact hfail p3 e3 hmem3 hr3
        · intro nm hnoc hnone
          have hne : e.name ≠ nm := by
            intro heq
            have := hnoc p e (List.mem_cons_self _ _) heq
            rw [this] at hr
            cases hr
          refine hlook nm (fun p2 e2 h2 hn => hnoc p2 e2 (List.mem_cons_of_mem _ h2) hn) ?_
          rw [lookup_dinsert]
          rw [if_neg (fun hx => hne hx.symm)]
          exact hnone
        · intro hall
          exact absurd (hall p e (List.mem_cons_self _ _)) (by rw [hr]; simp)

theorem collectCat_isOk (fs : SysFS) (ss : List (String × MonEntry)) :
    ∀ vals errs pos,
      (∀ p e, (p, e) ∈ ss → ∀ c, readFile fs e.fh = some c → (pyInt? c).isSome) →
      ∃ vals1 errs1 pos1, collectCat fs ss vals errs pos = (.ok (vals1, errs1), pos1) := by
  induction ss with
  | nil => intro vals errs pos _; exact ⟨vals, errs, pos, rfl⟩
  | cons hd tl ih =>
    obtain ⟨p, e⟩ := hd
    intro vals errs pos hparse
    simp only [collectCat]
    cases hr : readFile fs e.fh with
    | none =>
      exact ih _ _ _ (fun p3 e3 hm => hparse p3 e3 (List.mem_cons_of_mem _ hm))
    | some c =>
      simp only [seek_read_zero, List.drop_zero, asString_toList]
      have hp : (pyInt? c).isSome := hparse p e (List.mem_cons_self _ _) c hr
      cases hpc : pyInt? c with
      | none => rw [hpc] at hp; cases hp
      | some i =>
        exact ih _ _ _ (fun p3 e3 hm => hparse p3 e3 (List.mem_cons_of_mem _ hm))

theorem collectGo_fst_pos (fs : SysFS) (cats : List (String × List (String × MonEntry))) :
    ∀ data errs pos1 pos2,
      (collectGo fs cats data errs pos1).1 = (collectGo fs cats data errs pos2).1 := by
  induction cats with
  | nil => intro data errs pos1 pos2; rfl
  | cons hd tl ih =>
    obtain ⟨t, ss⟩ := hd
    intro data errs pos1 pos2
    simp only [collectGo]
    have hfst := collectCat_fst_pos fs ss [] errs pos1 pos2
    cases h1 : collectCat fs ss [] errs pos1 with
    | mk r1 q1 =>
      cases h2 : collectCat fs ss [] errs pos2 with
      | mk r2 q2 =>
        rw [h1, h2] at hfst
        simp only at hfst
        subst hfst
        cases r1 with
        | error msg => rfl
        | ok ve =>
          obtain ⟨vals, errs1⟩ := ve
          exact ih _ _ _ _

theorem collectGo_ok (fs : SysFS) (cats : List (String × List (String × MonEntry))) :
    ∀ data errs pos data1 errs1 pos1,
      collectGo fs cats data errs pos = (.ok (data1, errs1), pos1) →
      (∀ x ∈ data, x ∈ data1) ∧
      (∀ x ∈ errs, x ∈ errs1) ∧
      (data1.map Prod.fst = data.map Prod.fst ++ cats.map Prod.fst) ∧
      (∀ t ss, (t, ss) ∈ cats → ∃ vals, (t, vals) ∈ data1 ∧
        (∀ p e, (p, e) ∈ ss → readFile fs e.fh = none →
          ("Failed to read " ++ p) ∈ errs1 ∧
          ((∀ p2 e2, (p2, e2) ∈ ss → e2.name = e.name → readFile fs e2.fh = none) →
            List.lookup e.name vals = none)) ∧
        ((∀ p e, (p, e) ∈ ss → readFile fs e.fh = none) → vals = [])) := by
  induction cats with
  | nil =>
    intro data errs pos data1 errs1 pos1 h
    simp only [collectGo, Prod.mk.injEq, Except.ok.injEq] at h
    obtain ⟨⟨h1, h2⟩, -⟩ := h
    subst h1; subst h2
    exact ⟨fun x hx => hx, fun x hx => hx, by simp,
      fun t ss hmem => by simp at hmem⟩
  | cons hd tl ih =>
    obtain ⟨t0, ss0⟩ := hd
    intro data errs pos data1 errs1 pos1 h
    simp only [collectGo] at h
    cases hc : collectCat fs ss0 [] errs pos with
    | mk r0 q0 =>
      rw [hc] at h
      cases r0 with
      | error msg => simp only at h; cases h
      | ok ve =>
        obtain ⟨vals0, errs2⟩ := ve
        simp only at h
        obtain ⟨hcgrow, hcfail, hclook, hcall⟩ := collectCat_ok fs ss0 _ _ _ _ _ _ hc
        obtain ⟨hdgrow, hegrow, hkeys, hcats⟩ := ih _ _ _ _ _ _ h
        refine ⟨?_, ?_, ?_, ?_⟩
        · intro x hx
          exact hdgrow x (List.mem_append.mpr (Or.inl hx))
        · intro x hx
          exact hegrow x (hcgrow x hx)
        · rw [hkeys]
          simp
        · intro t ss hmem
          rcases List.mem_cons.mp hmem with heq | hmem3
          · cases heq
            refine ⟨vals0, hdgrow _ (List.mem_append.mpr (Or.inr (List.mem_cons_self _ _))), ?_, ?_⟩
            · intro p e hm hr
              refine ⟨hegrow _ ((hcfail p e hm hr)), ?_⟩
              intro hnoc
              exact hclook e.name hnoc rfl
            · intro hall
              exact hcall hall
          · exact hcats t ss hmem3

theorem collectGo_isOk (fs : SysFS) (cats : List (String × List (String × MonEntry))) :
    ∀ data errs pos,
      (∀ t ss, (t, ss) ∈ cats → ∀ p e, (p, e) ∈ ss → ∀ c,
        readFile fs e.fh = some c → (pyInt? c).isSome) →
      ∃ data1 errs1 pos1, collectGo fs cats data errs pos = (.ok (data1, errs1), pos1) := by
  induction cats with
  | nil => intro data errs pos _; exact ⟨data, errs, pos, rfl⟩
  | cons hd tl ih =>
    obtain ⟨t0, ss0⟩ := hd
    intro data errs pos hparse
    simp only [collectGo]
    obtain ⟨vals1, errs1, q1, hc⟩ :=
      collectCat_isOk fs ss0 [] errs pos
        (fun p e hm => hparse t0 ss0 (List.mem_cons_self _ _) p e hm)
    rw [hc]
    exact ih _ _ _ (fun t ss hm => hparse t ss (List.mem_cons_of_mem _ hm))

theorem collect_ok_spec (m : Mons) (fs : SysFS) (pos : PosMap) (s : Snapshot)
    (h : (m.collect fs pos).1 = .ok s) :
    s.titles = m.type_titles ∧
    s.data.map Prod.fst = m.mons.map Prod.fst ∧
    (∀ t ss, (t, ss) ∈ m.mons → ∃ vals, (t, vals) ∈ s.data ∧
      (∀ p e, (p, e) ∈ ss → readFile fs e.fh = none →
        ("Failed to read " ++ p) ∈ s.errors ∧
        ((∀ p2 e2, (p2, e2) ∈ ss → e2.name = e.name → readFile fs e2.fh = none) →
          List.lookup e.name vals = none)) ∧
      ((∀ p e, (p, e) ∈ ss → readFile fs e.fh = none) → vals = [])) := by
  unfold Mons.collect at h
  cases hg : collectGo fs m.mons [] [] pos with
  | mk r q =>
    rw [hg] at h
    cases r with
    | error msg => simp only at h; cases h
    | ok de =>
      obtain ⟨data, errs⟩ := de
      simp only [Except.ok.injEq] at h
      subst h
      obtain ⟨-, -, hkeys, hcats⟩ := collectGo_ok fs m.mons _ _ _ _ _ _ hg
      refine ⟨rfl, ?_, ?_⟩
      · simpa using hkeys
      · exact hcats

theorem collect_isOk (m : Mons) (fs : SysFS) (pos : PosMap)
    (hparse : ∀ t ss, (t, ss) ∈ m.mons → ∀ p e, (p, e) ∈ ss → ∀ c,
      readFile fs e.fh = some c → (pyInt? c).isSome) :
    ∃ s, (m.collect fs pos).1 = .ok s := by
  unfold Mons.collect
  obtain ⟨data1, errs1, pos1, hg⟩ := collectGo_isOk fs m.mons [] [] pos hparse
  rw [hg]
  exact ⟨⟨errs1, m.type_titles, data1⟩, rfl⟩

theorem collect_fst_pos (m : Mons) (fs : SysFS) (pos1 pos2 : PosMap) :
    (m.collect fs pos1).1 = (m.collect fs pos2).1 := by
  unfold Mons.collect
  have hfst := collectGo_fst_pos fs m.mons [] [] pos1 pos2
  cases h1 : collectGo fs m.mons [] [] pos1 with
  | mk r1 q1 =>
    cases h2 : collectGo fs m.mons [] [] pos2 with
    | mk r2 q2 =>
      rw [h1, h2] at hfst
      simp only at hfst
      subst hfst
      cases r1 with
      | error msg => rfl
      | ok de => rfl

/-! ### Registry-construction lemmas -/

theorem monsInitGo_ok_iff (fs : SysFS) (l : List (String × String)) :
    ∀ mons titles pos,
      (∃ r, monsInitGo fs l mons titles pos = .ok r) ↔
      (∀ g ∈ l, (readFile fs g).isSome) := by
  induction l with
  | nil =>
    intro mons titles pos
    simp [monsInitGo]
  | cons hd tl ih =>
    obtain ⟨d, b⟩ := hd
    intro mons titles pos
    simp only [monsInitGo]
    cases hr : readFile fs (d, b) with
    | none =>
      constructor
      · rintro ⟨r, hr1⟩
        cases hr1
      · intro hall
        have := hall (d, b) (List.mem_cons_self _ _)
        rw [hr] at this
        cases this
    | some c =>
      rw [ih]
      constructor
      · intro hall g hg
        rcases List.mem_cons.mp hg with heq | hmem
        · subst heq; rw [hr]; rfl
        · exact hall g hmem
      · intro hall g hg
        exact hall g (List.mem_cons_of_mem _ hg)

theorem monsInitGo_table (fs : SysFS) (l : List (String × String)) :
    ∀ mons titles pos m pos1,
      monsInitGo fs l mons titles pos = .ok (m, pos1) →
      (∀ t title, (t, title) ∈ titles → title = (monTypeInfo t).1) →
      (∀ t bucket, (t, bucket) ∈ mons → ∀ p e, (p, e) ∈ bucket →
        e.scale = (monTypeInfo t).2.1 ∧ e.offset = (monTypeInfo t).2.2) →
      (∀ t title, (t, title) ∈ m.type_titles → title = (monTypeInfo t).1) ∧
      (∀ t bucket, (t, bucket) ∈ m.mons → ∀ p e, (p, e) ∈ bucket →
        e.scale = (monTypeInfo t).2.1 ∧ e.offset = (monTypeInfo t).2.2) := by
  induction l with
  | nil =>
    intro mons titles pos m pos1 h htitles hmons
    simp only [monsInitGo, Except.ok.injEq, Prod.mk.injEq] at h
    obtain ⟨h1, -⟩ := h
    subst h1
    exact ⟨htitles, hmons⟩
  | cons hd tl ih =>
    obtain ⟨d, b⟩ := hd
    intro mons titles pos m pos1 h htitles hmons
    simp only [monsInitGo] at h
    cases hr : readFile fs (d, b) with
    | none => rw [hr] at h; cases h
    | some c =>
      rw [hr] at h
      refine ih _ _ _ _ _ h ?_ ?_
      · intro t title hmem
        rcases mem_dinsert _ _ _ _ hmem with heq | hmem2
        · cases heq; rfl
        · exact htitles t title hmem2
      · intro t bucket hmem p e hpe
        rcases mem_dinsert _ _ _ _ hmem with heq | hmem2
        · cases heq
          rcases mem_dinsert _ _ _ _ hpe with heq2 | hpe2
          · cases heq2; exact ⟨rfl, rfl⟩
          · cases hlk : List.lookup (monTypeOf b) mons with
            | none => rw [hlk] at hpe2; simp at hpe2
            | some bucket0 =>
              rw [hlk] at hpe2
              exact hmons _ bucket0 (lookup_mem _ _ _ hlk) p e hpe2
        · exact hmons t bucket hmem2 p e hpe

theorem monTypeInfo_title (t : String) : (monTypeInfo t).1 = specTitle t := by
  unfold monTypeInfo specTitle
  split_ifs <;> rfl

theorem monTypeInfo_scale (t : String) : (monTypeInfo t).2.1 = specScale t := by
  unfold monTypeInfo specScale
  split_ifs <;> rfl

theorem monTypeInfo_offset (t : String) : (monTypeInfo t).2.2 = 0 := by
  unfold monTypeInfo
  split_ifs <;> rfl

/-! ### SSE loop lemmas -/

theorem SseRun_bytes_mk (b : String) (e : Option SseExit) :
    (SseRun.mk b e).bytes = b := rfl

theorem SseRun_exit_mk (b : String) (e : Option SseExit) :
    (SseRun.mk b e).exit = e := rfl

theorem sseLoop_exit_spec (m : Mons) (ticks : List TickEnv) :
    ∀ pos,
      (∀ env ∈ ticks, ∃ s, (m.collect env.fs []).1 = .ok s) →
      ((sseLoop m pos ticks).exit ≠ none ↔
        ∃ env ∈ ticks, env.w1 = false ∨ env.w2 = false ∨ env.w3 = false ∨
          env.wFlush = false) ∧
      (∀ x, (sseLoop m pos ticks).exit = some x → x = SseExit.clientGone) := by
  induction ticks with
  | nil =>
    intro pos _
    simp [sseLoop]
  | cons env rest ih =>
    intro pos hok
    obtain ⟨s0, hs0⟩ := hok env (List.mem_cons_self _ _)
    have hfst : (m.collect env.fs pos).1 = .ok s0 := by
      rw [collect_fst_pos m env.fs pos []]
      exact hs0
    simp only [sseLoop]
    cases hw1 : env.w1 with
    | false =>
      simp only [if_pos rfl, SseRun_exit_mk]
      refine ⟨⟨fun _ => ⟨env, List.mem_cons_self _ _, Or.inl hw1⟩, fun _ => by simp⟩, ?_⟩
      intro x hx
      cases hx
      rfl
    | true =>
      simp only [if_neg (show ¬(true = false) by decide)]
      cases hc : m.collect env.fs pos with
      | mk r pos1 =>
        rw [hc] at hfst
        simp only at hfst
        subst hfst
        cases hw2 : env.w2 with
        | false =>
          simp only [if_pos rfl, SseRun_exit_mk]
          refine ⟨⟨fun _ => ⟨env, List.mem_cons_self _ _, Or.inr (Or.inl hw2)⟩,
            fun _ => by simp⟩, ?_⟩
          intro x hx
          cases hx
          rfl
        | true =>
          simp only [if_neg (show ¬(true = false) by decide)]
          cases hw3 : env.w3 with
          | false =>
            simp only [if_pos rfl, SseRun_exit_mk]
            refine ⟨⟨fun _ => ⟨env, List.mem_cons_self _ _, Or.inr (Or.inr (Or.inl hw3))⟩,
              fun _ => by simp⟩, ?_⟩
            intro x hx
            cases hx
            rfl
          | true =>
            simp only [if_neg (show ¬(true = false) by decide)]
            cases hwf : env.wFlush with
            | false =>
              simp only [if_pos rfl, SseRun_exit_mk]
              refine ⟨⟨fun _ => ⟨env, List.mem_cons_self _ _, Or.inr (Or.inr (Or.inr hwf))⟩,
                fun _ => by simp⟩, ?_⟩
              intro x hx
              cases hx
              rfl
            | true =>
              simp only [if_neg (show ¬(true = false) by decide), SseRun_exit_mk]
              obtain ⟨hiff, hgone⟩ := ih pos1 (fun e he => hok e (List.mem_cons_of_mem _ he))
              refine ⟨?_, hgone⟩
              rw [hiff]
              constructor
              · rintro ⟨e, he, hflag⟩
                exact ⟨e, List.mem_cons_of_mem _ he, hflag⟩
              · rintro ⟨e, he, hflag⟩
                rcases List.mem_cons.mp he with heq | hmem
                · subst heq
                  rcases hflag with hf | hf | hf | hf
                  · rw [hw1] at hf; cases hf
                  · rw [hw2] at hf; cases hf
                  · rw [hw3] at hf; cases hf
                  · rw [hwf] at hf; cases hf
                · exact ⟨e, hmem, hflag⟩

theorem sseLoop_frames_spec (m : Mons) (ticks : List TickEnv) :
    ∀ pos,
      (∀ env ∈ ticks, ∃ s, (m.collect env.fs []).1 = .ok s) →
      (∀ env ∈ ticks, env.w1 = true ∧ env.w2 = true ∧ env.w3 = true ∧
        env.wFlush = true) →
      (sseLoop m pos ticks).bytes = sseFrames (tickSnaps m pos ticks) ∧
      (sseLoop m pos ticks).exit = none := by
  induction ticks with
  | nil =>
    intro pos _ _
    simp [sseLoop, tickSnaps, sseFrames]
  | cons env rest ih =>
    intro pos hok hw
    obtain ⟨s0, hs0⟩ := hok env (List.mem_cons_self _ _)
    have hfst : (m.collect env.fs pos).1 = .ok s0 := by
      rw [collect_fst_pos m env.fs pos []]
      exact hs0
    obtain ⟨hw1, hw2, hw3, hwf⟩ := hw env (List.mem_cons_self _ _)
    simp only [sseLoop, tickSnaps, hw1, hw2, hw3, hwf,
      if_neg (show ¬(true = false) by decide)]
    cases hc : m.collect env.fs pos with
    | mk r pos1 =>
      rw [hc] at hfst
      simp only at hfst
      subst hfst
      simp only [SseRun_bytes_mk, SseRun_exit_mk]
      obtain ⟨hbytes, hexit⟩ := ih pos1
        (fun e he => hok e (List.mem_cons_of_mem _ he))
        (fun e he => hw e (List.mem_cons_of_mem _ he))
      rw [hbytes, hexit]
      exact ⟨by rw [sseFrames], rfl⟩

/-! ### Schema conformance -/

theorem conforms_of_keys (s : Snapshot)
    (h : ∀ t ∈ s.data.map Prod.fst, t ≠ "_errors" ∧ t ≠ "_titles") :
    conformsSnapshotSchema (snapshotJson s) = true := by
  unfold conformsSnapshotSchema snapshotJson
  simp only [Bool.and_eq_true, List.all_eq_true]
  constructor
  · intro p hp
    obtain ⟨q, hq, hqe⟩ := List.mem_map.mp hp
    subst hqe
    rfl
  · intro p hp
    obtain ⟨q, hq, hqe⟩ := List.mem_map.mp hp
    subst hqe
    obtain ⟨h1, h2⟩ := h q.1 (List.mem_map.mpr ⟨q, hq, rfl⟩)
    simp only [Bool.and_eq_true, decide_eq_true_eq]
    refine ⟨⟨h1, h2⟩, ?_⟩
    simp only [List.all_eq_true]
    intro r hr
    obtain ⟨w, hw, hwe⟩ := List.mem_map.mp hr
    subst hwe
    rfl

/-! ### Claim theorems -/

/-- Claim C9: for every GET request whose parsed path is not exactly `/`,
`/mon.json` or `/mon.sse`, the server responds with status 404, content
type `text/plain` and a plain-text body. -/
theorem unknown_route_404 (pageHtml : String) (fs : SysFS) (ticks : List TickEnv)
    (raw : String) (h1 : urlPath raw ≠ "/") (h2 : urlPath raw ≠ "/mon.json")
    (h3 : urlPath raw ≠ "/mon.sse") :
    (do_GET pageHtml fs ticks raw).status = 404 ∧
    (do_GET pageHtml fs ticks raw).contentType = "text/plain" ∧
    (do_GET pageHtml fs ticks raw).body = "Not found" := by
  unfold do_GET
  simp only [if_neg h1, if_neg h2, if_neg h3]
  exact ⟨trivial, trivial, trivial⟩

/-- Witness for C9: `GET /does-not-exist` is a plain-text 404. -/
theorem unknown_route_404_witness :
    (do_GET "" ⟨[]⟩ [] "/does-not-exist").status = 404 ∧
    (do_GET "" ⟨[]⟩ [] "/does-not-exist").contentType = "text/plain" ∧
    (do_GET "" ⟨[]⟩ [] "/does-not-exist").body = "Not found" :=
  unknown_route_404 "" ⟨[]⟩ [] "/does-not-exist" (by decide) (by decide) (by decide)

/-- Claim C4: every registry built by `Mons.__init__` assigns exactly the
scale and title of the §6 conversion table to every category (the `in`
category is titled as voltage, never as raw `in`; categories outside the
table get scale 1, title equal to the raw category string), and offset 0
everywhere. -/
theorem registry_matches_spec_table (globbed : List (String × String)) (fs : SysFS)
    (m : Mons) (pos : PosMap) (h : monsInit globbed fs = .ok (m, pos)) :
    (∀ t title, (t, title) ∈ m.type_titles → title = specTitle t) ∧
    (∀ t bucket, (t, bucket) ∈ m.mons → ∀ p e, (p, e) ∈ bucket →
      e.scale = specScale t ∧ e.offset = 0) ∧
    specTitle "in" = "Voltage (V)" ∧ specScale "in" = 0.001 ∧
    specTitle "fan" = "Fan speed (RPM)" ∧ specScale "fan" = 1 ∧
    specTitle "temp" = "Temperature (°C)" ∧ specScale "temp" = 0.001 ∧
    specTitle "curr" = "Current (A)" ∧ specScale "curr" = 0.001 ∧
    specTitle "power" = "Power (W)" ∧ specScale "power" = 0.000001 ∧
    specTitle "energy" = "Energy (J)" ∧ specScale "energy" = 0.000001 ∧
    specTitle "freq" = "Frequency (MHz)" ∧ specScale "freq" = 0.000001 ∧
    (∀ t, t ≠ "in" → t ≠ "fan" → t ≠ "temp" → t ≠ "curr" → t ≠ "power" →
      t ≠ "energy" → t ≠ "freq" → specTitle t = t ∧ specScale t = 1) := by
  unfold monsInit at h
  obtain ⟨ht, hm⟩ := monsInitGo_table fs (sortByPath globbed) [] [] [] m pos h
    (fun t title hmem => absurd hmem (List.not_mem_nil _))
    (fun t bucket hmem => absurd hmem (List.not_mem_nil _))
  refine ⟨?_, ?_, rfl, rfl, rfl, rfl, rfl, rfl, rfl, rfl, rfl, rfl, rfl, rfl,
    rfl, rfl, ?_⟩
  · intro t title hmem
    rw [ht t title hmem, monTypeInfo_title]
  · intro t bucket hmem p e hpe
    obtain ⟨hs, ho⟩ := hm t bucket hmem p e hpe
    rw [hs, ho, monTypeInfo_scale, monTypeInfo_offset]
    exact ⟨rfl, rfl⟩
  · intro t n1 n2 n3 n4 n5 n6 n7
    unfold specTitle specScale
    rw [if_neg n1, if_neg n2, if_neg n3, if_neg n4, if_neg n5, if_neg n6, if_neg n7,
      if_neg n1, if_neg n2, if_neg n3, if_neg n4, if_neg n5, if_neg n6, if_neg n7]
    exact ⟨rfl, rfl⟩

/-- Witness for C4: the registry built from a real temperature sensor
carries the table title for `temp`. -/
theorem registry_matches_spec_table_witness :
    "Temperature (°C)" = specTitle "temp" :=
  (registry_matches_spec_table (globInput fsEx1) fsEx1 mEx1 posEx1 (by rfl)).1
    "temp" "Temperature (°C)" (by decide)

/-- Claim C5: the display name of a discovered input is the device
directory instance id, a colon, the optional `name` file contents (empty
when absent), a space, and the `_label` contents when present or the
channel identifier with `_input` stripped otherwise; in particular
instance 1, name `coretemp`, label `Package id 0` gives
`1:coretemp Package id 0`, and without a label, channel `temp1` gives
`1:coretemp temp1`. -/
theorem display_name_composition :
    (∀ fs instId b, (∀ c ∈ instId.toList, c.isDigit) →
      monNameOf fs ("hwmon" ++ instId) b =
        instId ++ ":" ++ slurp fs ("hwmon" ++ instId) "name" "" ++ " " ++
          slurp fs ("hwmon" ++ instId) (labelName b) (channelOf b)) ∧
    (((List.lookup "temp" mEx1.mons).bind
        (List.lookup "/sys/class/hwmon/hwmon1/temp1_input")).map MonEntry.name =
      some "1:coretemp Package id 0") ∧
    (((List.lookup "temp" mEx2.mons).bind
        (List.lookup "/sys/class/hwmon/hwmon1/temp1_input")).map MonEntry.name =
      some "1:coretemp temp1") := by
  refine ⟨?_, by rfl, by rfl⟩
  intro fs instId b hd
  unfold monNameOf
  rw [pyRemoveHwmon_hwmon instId hd]

/-- Witness for C5: the composition rule applied to the labelled fixture. -/
theorem display_name_composition_witness :
    monNameOf fsEx1 ("hwmon" ++ "1") "temp1_input" =
      "1" ++ ":" ++ slurp fsEx1 ("hwmon" ++ "1") "name" "" ++ " " ++
        slurp fsEx1 ("hwmon" ++ "1") (labelName "temp1_input") (channelOf "temp1_input") :=
  display_name_composition.1 fsEx1 "1" "temp1_input" (by decide)

/-! ### Concrete-registry discharge lemmas -/

theorem mC_mons_eq : mC.mons = [("temp", bucketC)] := rfl

theorem bucketC_eq : bucketC = [("/sys/class/hwmon/hwmon0/temp1_input", entryC)] := rfl

theorem mC_read_fsC : ∀ t ss, (t, ss) ∈ mC.mons → ∀ p e, (p, e) ∈ ss →
    (readFile fsC e.fh).isSome := by
  intro t ss hts p e hpe
  rw [mC_mons_eq] at hts
  have h1 := List.mem_singleton.mp hts
  injection h1 with ht hss
  subst hss
  rw [bucketC_eq] at hpe
  have h2 := List.mem_singleton.mp hpe
  injection h2 with hp he
  subst he
  rfl

theorem mC_parse_fsC : ∀ t ss, (t, ss) ∈ mC.mons → ∀ p e, (p, e) ∈ ss → ∀ c,
    readFile fsC e.fh = some c → (pyInt? c).isSome := by
  intro t ss hts p e hpe c hc
  rw [mC_mons_eq] at hts
  have h1 := List.mem_singleton.mp hts
  injection h1 with ht hss
  subst hss
  rw [bucketC_eq] at hpe
  have h2 := List.mem_singleton.mp hpe
  injection h2 with hp he
  subst he
  have h42 : readFile fsC entryC.fh = some "42" := rfl
  rw [h42] at hc
  injection hc with hce
  subst hce
  rfl

theorem mC_parse_fsGone : ∀ t ss, (t, ss) ∈ mC.mons → ∀ p e, (p, e) ∈ ss → ∀ c,
    readFile fsGone e.fh = some c → (pyInt? c).isSome := by
  intro t ss hts p e hpe c hc
  rw [mC_mons_eq] at hts
  have h1 := List.mem_singleton.mp hts
  injection h1 with ht hss
  subst hss
  rw [bucketC_eq] at hpe
  have h2 := List.mem_singleton.mp hpe
  injection h2 with hp he
  subst he
  have hng : readFile fsGone entryC.fh = none := rfl
  rw [hng] at hc
  cases hc

theorem mC_tickGood_ok : ∀ env ∈ [tickGoodC],
    ∃ s, (mC.collect env.fs []).1 = Except.ok s := by
  intro env henv
  have h1 := List.mem_singleton.mp henv
  subst h1
  exact ⟨snapC, rfl⟩

/-- Claim C2 (corrected): registry construction succeeds exactly when every
glob-matched input file still exists at open time. A matched input file
that disappears between the glob scan and the `open` makes construction
raise a `FileNotFoundError` (fail hard); only the optional `name` and
`_label` files are tolerated as missing. -/
theorem monsInit_ok_iff_inputs_present (globbed : List (String × String)) (fs : SysFS) :
    (∃ r, monsInit globbed fs = .ok r) ↔ ∀ g ∈ globbed, (readFile fs g).isSome := by
  unfold monsInit
  rw [monsInitGo_ok_iff]
  constructor
  · intro hall g hg
    exact hall g ((mem_sortByPath g globbed).mpr hg)
  · intro hall g hg
    exact hall g ((mem_sortByPath g globbed).mp hg)

/-- Counterexample for C2: an input file matched by the glob but deleted
before the `open` aborts construction with an exception instead of
surfacing later as a per-sensor read error. -/
theorem monsInit_missing_input_fails_cex :
    monsInit [("hwmon0", "temp1_input")] ⟨[]⟩ =
      .error "FileNotFoundError: /sys/class/hwmon/hwmon0/temp1_input" := rfl

/-- Claim C10: every snapshot returned by `collect()` has one key per
registered category, in registry order, and a category all of whose
sensor reads failed in that poll is still present, with an empty value
mapping. -/
theorem collect_categories_always_present (m : Mons) (fs : SysFS) (pos : PosMap)
    (s : Snapshot) (h : (m.collect fs pos).1 = .ok s) :
    s.data.map Prod.fst = m.mons.map Prod.fst ∧
    (∀ t ss, (t, ss) ∈ m.mons → ∃ vals, (t, vals) ∈ s.data ∧
      ((∀ p e, (p, e) ∈ ss → readFile fs e.fh = none) → vals = [])) := by
  obtain ⟨-, hkeys, hcats⟩ := collect_ok_spec m fs pos s h
  refine ⟨hkeys, fun t ss hm => ?_⟩
  obtain ⟨vals, hvm, -, hempty⟩ := hcats t ss hm
  exact ⟨vals, hvm, hempty⟩

/-- Witness for C10: with the only sensor file deleted, the snapshot still
carries the `temp` category key. -/
theorem collect_categories_always_present_witness :
    snapGone.data.map Prod.fst = mC.mons.map Prod.fst :=
  (collect_categories_always_present mC fsGone posC snapGone rfl).1

/-- Claim C6: two successive `collect()` calls on a registry whose handles
are all readable (with integer content) both return snapshots, and the
second call, run from the handle positions the first left behind, returns
the identical snapshot (identical `_titles` and identical numeric values),
because every read seeks back to position zero first. -/
theorem collect_twice_deterministic (m : Mons) (fs : SysFS) (pos : PosMap)
    (hread : ∀ t ss, (t, ss) ∈ m.mons → ∀ p e, (p, e) ∈ ss →
      (readFile fs e.fh).isSome)
    (hparse : ∀ t ss, (t, ss) ∈ m.mons → ∀ p e, (p, e) ∈ ss → ∀ c,
      readFile fs e.fh = some c → (pyInt? c).isSome) :
    (m.collect fs pos).1.isOk = true ∧
    (m.collect fs (m.collect fs pos).2).1 = (m.collect fs pos).1 := by
  obtain ⟨s, hs⟩ := collect_isOk m fs pos hparse
  constructor
  · rw [hs]
    rfl
  · exact collect_fst_pos m fs _ pos

/-- Witness for C6: the readable fixture collects the same snapshot twice
in a row. -/
theorem collect_twice_deterministic_witness :
    (mC.collect fsC posC).1.isOk = true ∧
    (mC.collect fsC (mC.collect fsC posC).2).1 = (mC.collect fsC posC).1 :=
  collect_twice_deterministic mC fsC posC mC_read_fsC mC_parse_fsC

/-- Claim C1 (corrected): a read failure (`OSError`) on one sensor is
isolated: collection still completes, `_errors` gains an entry naming the
sensor's path, and the sensor's display name is absent from its category
mapping whenever no other sensor of that category shares the name and
succeeds. A parse failure (`int()` raising `ValueError`) is not caught by
the `except OSError` handler and aborts the whole collection. -/
theorem collect_read_failure_isolated (m : Mons) (fs : SysFS) (pos : PosMap)
    (hparse : ∀ t ss, (t, ss) ∈ m.mons → ∀ p e, (p, e) ∈ ss → ∀ c,
      readFile fs e.fh = some c → (pyInt? c).isSome) :
    ∃ s, (m.collect fs pos).1 = .ok s ∧
      ∀ t ss, (t, ss) ∈ m.mons → ∀ p e, (p, e) ∈ ss → readFile fs e.fh = none →
        ("Failed to read " ++ p) ∈ s.errors ∧
        ((∀ p2 e2, (p2, e2) ∈ ss → e2.name = e.name → readFile fs e2.fh = none) →
          ∃ vals, (t, vals) ∈ s.data ∧ List.lookup e.name vals = none) := by
  obtain ⟨s, hs⟩ := collect_isOk m fs pos hparse
  obtain ⟨-, -, hcats⟩ := collect_ok_spec m fs pos s hs
  refine ⟨s, hs, ?_⟩
  intro t ss hm p e hpe hr
  obtain ⟨vals, hvmem, hprops, -⟩ := hcats t ss hm
  obtain ⟨herr, hlook⟩ := hprops p e hpe hr
  exact ⟨herr, fun hnoc => ⟨vals, hvmem, hlook hnoc⟩⟩

/-- Counterexample for C1: content that `int()` rejects aborts the whole
collection with an exception instead of being recorded in `_errors`. -/
theorem collect_parse_failure_aborts_cex :
    (mC.collect fsBadC posC).1 =
      .error "invalid literal for int() with base 10: oops" := rfl

/-- Witness for C1: with the sensor file deleted, the snapshot records the
failure note naming the path. -/
theorem collect_read_failure_isolated_witness :
    "Failed to read /sys/class/hwmon/hwmon0/temp1_input" ∈ snapGone.errors := by
  obtain ⟨s, hs, hprops⟩ := collect_read_failure_isolated mC fsGone posC mC_parse_fsGone
  have h2 : (mC.collect fsGone posC).1 = .ok snapGone := rfl
  rw [hs] at h2
  injection h2 with h3
  subst h3
  exact (hprops "temp" bucketC (by rw [mC_mons_eq]; exact List.mem_singleton.mpr rfl)
    "/sys/class/hwmon/hwmon0/temp1_input" entryC
    (by rw [bucketC_eq]; exact List.mem_singleton.mpr rfl) rfl).1

/-- Claim C3 (corrected): per established /mon.sse connection the emit
loop runs Collect, Emit, Sleep per tick; when every collection returns a
snapshot the loop exits exactly when one of the writes or the flush
fails, and every such exit is the clean client-disconnect return. A
collection that raises (parse failure) also ends the loop, so write
failure is not the sole exit cause of the code as implemented. -/
theorem sse_loop_exit_characterization (m : Mons) (pos : PosMap)
    (ticks : List TickEnv)
    (hok : ∀ env ∈ ticks, ∃ s, (m.collect env.fs []).1 = .ok s) :
    ((sseLoop m pos ticks).exit ≠ none ↔
      ∃ env ∈ ticks, env.w1 = false ∨ env.w2 = false ∨ env.w3 = false ∨
        env.wFlush = false) ∧
    (∀ x, (sseLoop m pos ticks).exit = some x → x = SseExit.clientGone) :=
  sseLoop_exit_spec m ticks pos hok

/-- Counterexample for C3: a tick on which every write and the flush
succeed still ends the loop when the collection raises. -/
theorem sse_loop_collect_exception_exit_cex :
    tickAllTrue.w1 = true ∧ tickAllTrue.w2 = true ∧ tickAllTrue.w3 = true ∧
    tickAllTrue.wFlush = true ∧
    (sseLoop mC posC [tickAllTrue]).exit =
      some (SseExit.exn "invalid literal for int() with base 10: oops") :=
  ⟨rfl, rfl, rfl, rfl, rfl⟩

/-- Witness for C3: a failing first write ends the loop. -/
theorem sse_loop_exit_characterization_witness :
    (sseLoop mC posC [⟨fsC, false, true, true, true⟩]).exit ≠ none := by
  have hok : ∀ env ∈ [(⟨fsC, false, true, true, true⟩ : TickEnv)],
      ∃ s, (mC.collect env.fs []).1 = Except.ok s := by
    intro env henv
    have h1 := List.mem_singleton.mp henv
    subst h1
    exact ⟨snapC, rfl⟩
  exact (sse_loop_exit_characterization mC posC _ hok).1.mpr
    ⟨⟨fsC, false, true, true, true⟩, List.mem_cons_self _ _, Or.inl rfl⟩

/-- Claim C7 (corrected): every GET /mon.json response carries status 200
and content type application/json (sent before collection); whenever
registry construction succeeds the registry is torn down before the
request completes; and whenever the collection also succeeds the body is
the snapshot serialized as JSON conforming to the schema: an `_errors`
array, a `_titles` mapping present even with zero sensors, and one key
per registered category mapping display names to numbers. When the
collection raises, the handler aborts with an empty body, which is not a
JSON document. -/
theorem do_mon_response_spec (fs : SysFS) :
    (do_mon fs).status = 200 ∧
    (do_mon fs).contentType = "application/json" ∧
    (∀ m pos, monsInit (globInput fs) fs = .ok (m, pos) →
      (do_mon fs).closed = true ∧
      (∀ s, (m.collect fs pos).1 = .ok s →
        (do_mon fs).completed = true ∧
        (do_mon fs).body = pyJsonDumps s ∧
        s.data.map Prod.fst = m.mons.map Prod.fst ∧
        ((∀ t ∈ s.data.map Prod.fst, t ≠ "_errors" ∧ t ≠ "_titles") →
          conformsSnapshotSchema (snapshotJson s) = true))) := by
  unfold do_mon
  cases h0 : monsInit (globInput fs) fs with
  | error msg =>
    refine ⟨rfl, rfl, ?_⟩
    intro m pos hm
    cases hm
  | ok mp =>
    obtain ⟨m0, pos0⟩ := mp
    have hkeyfacts := fun (s : Snapshot) (hs : (m0.collect fs pos0).1 = .ok s) =>
      (collect_ok_spec m0 fs pos0 s hs).2.1
    refine ⟨?_, ?_, ?_⟩
    · cases hc : (m0.collect fs pos0).1 <;> simp only [hc]
    · cases hc : (m0.collect fs pos0).1 <;> simp only [hc]
    · intro m pos hm
      injection hm with h1
      injection h1 with hm0 hp0
      subst hm0
      subst hp0
      constructor
      · cases hc : (m0.collect fs pos0).1 <;> simp only [hc]
      · intro s hs
        simp only [hs]
        exact ⟨trivial, trivial, hkeyfacts s hs, conforms_of_keys s⟩

/-- Counterexample for C7: a parse failure during collection leaves the
/mon.json body empty (not JSON) with the handler aborted, though status
200 and the JSON content type were already sent. -/
theorem do_mon_parse_failure_invalid_body_cex :
    (do_mon fsBadC).body = "" ∧ (do_mon fsBadC).completed = false ∧
    (do_mon fsBadC).status = 200 := ⟨rfl, rfl, rfl⟩

/-- Witness for C7: with zero sensors the response is the degenerate
schema-conforming document with empty `_errors` and `_titles`. -/
theorem do_mon_response_spec_witness :
    (do_mon ⟨[]⟩).status = 200 ∧ (do_mon ⟨[]⟩).contentType = "application/json" ∧
    (do_mon ⟨[]⟩).closed = true ∧ (do_mon ⟨[]⟩).completed = true ∧
    (do_mon ⟨[]⟩).body = pyJsonDumps ⟨[], [], []⟩ ∧
    conformsSnapshotSchema (snapshotJson ⟨[], [], []⟩) = true := by
  have h := do_mon_response_spec ⟨[]⟩
  have h3 := h.2.2 ⟨[], []⟩ [] rfl
  have h4 := h3.2 ⟨[], [], []⟩ rfl
  exact ⟨h.1, h.2.1, h3.1, h4.1, h4.2.1, h4.2.2.2 (by decide)⟩

/-- Claim C8: the SSE inter-emission sleep interval is the update-rate
query parameter interpreted as milliseconds (the parameter value divided
by 1000, in seconds), defaulting to 300 ms when the parameter is absent;
and a fully successful run of the emit loop writes exactly the
concatenation of frames `data: <json>` terminated by a blank line, one
per collected snapshot. -/
theorem sse_interval_and_frame_format :
    (∀ qs, List.lookup "update-rate" qs = none →
      updateRateSeconds qs = .ok (((300 : Int) : ℚ) / 1000)) ∧
    (∀ qs str v, List.lookup "update-rate" qs = some [str] → pyInt? str = some v →
      updateRateSeconds qs = .ok ((v : ℚ) / 1000)) ∧
    (∀ qs fs0 ticks rate, updateRateSeconds qs = .ok rate →
      (do_mon_sse qs fs0 ticks).sleepSeconds = some rate) ∧
    (∀ m pos ticks,
      (∀ env ∈ ticks, ∃ s, (m.collect env.fs []).1 = .ok s) →
      (∀ env ∈ ticks, env.w1 = true ∧ env.w2 = true ∧ env.w3 = true ∧
        env.wFlush = true) →
      (sseLoop m pos ticks).bytes = sseFrames (tickSnaps m pos ticks)) := by
  refine ⟨?_, ?_, ?_, ?_⟩
  · intro qs h
    unfold updateRateSeconds
    rw [h]
    rfl
  · intro qs str v h hp
    unfold updateRateSeconds
    rw [h]
    have hp2 : pyInt? (String.join ((some [str]).getD ["300"])) = some v := hp
    rw [hp2]
  · intro qs fs0 ticks rate h
    unfold do_mon_sse
    rw [h]
    cases hm : monsInit (globInput fs0) fs0 with
    | error msg => rfl
    | ok mp => rfl
  · exact fun m pos ticks hok hw => (sseLoop_frames_spec m ticks pos hok hw).1

/-- Witness for C8: `update-rate=1000` yields a 1000 ms interval and a
successful tick emits one complete frame. -/
theorem sse_interval_and_frame_format_witness :
    updateRateSeconds [("update-rate", ["1000"])] = .ok (((1000 : Int) : ℚ) / 1000) ∧
    (sseLoop mC posC [tickGoodC]).bytes = sseFrames (tickSnaps mC posC [tickGoodC]) :=
  ⟨sse_interval_and_frame_format.2.1 [("update-rate", ["1000"])] "1000" 1000 rfl rfl,
   sse_interval_and_frame_format.2.2.2 mC posC [tickGoodC] mC_tickGood_ok
     (by
       intro env henv
       have h1 := List.mem_singleton.mp henv
       subst h1
       exact ⟨rfl, rfl, rfl, rfl⟩)⟩
